import Mathlib

/-!
Shallow embedding of the Pantera pricing engine (Go) and proofs about it.

Conventions of the embedding:
* Go `float64` values are modelled as exact rationals (`ℚ`); the claims under
  study are about the arithmetic formulas of the code, not about IEEE-754
  rounding error, NaN or infinities.
* Go `map[string]interface{}` values are modelled as association lists
  `List (String × GoVal)` with first-match lookup; `[]interface{}` as
  `List GoVal`.
* Go `interface{}` values are the inductive `GoVal` below.  The numeric
  constructors `.f` (for float64/float32) and `.i` (for int/int64) mirror the
  type switches in the source, which accept exactly those four numeric types.
* `time.Time` is modelled by the `GoTime` structure: the only observations the
  code makes on a timestamp are `Weekday()`, `Hour()`, `Minute()` and
  `IsZero()`.  `time.Now()` and the RFC3339 parser are parameters (`now`,
  `parse`) of the functions that use them.
* Fallible Go functions returning `(T, error)` become `Except GoErr T`;
  errors are modelled by their kind (the sentinel error wrapped), since the
  engine's contract is in terms of error kinds.
-/

namespace Pantera

/-- Go `interface{}` values as they occur in request inputs and rule configs. -/
inductive GoVal : Type where
  | f : ℚ → GoVal                          -- float64 / float32
  | i : ℤ → GoVal                          -- int / int64
  | s : String → GoVal                     -- string
  | b : Bool → GoVal                       -- bool
  | m : List (String × GoVal) → GoVal      -- map[string]interface\x7b\x7d
  | arr : List GoVal → GoVal               -- []interface\x7b\x7d
  | null : GoVal

/-- First-match lookup in an association list, modelling Go map indexing
`m[key]` (`value, ok` form). -/
def mapGet : List (String × GoVal) → String → Option GoVal
  | [], _ => none
  | (k, v) :: rest, key => if k = key then some v else mapGet rest key

/-- Embeds `domain.GetFloat64`: extract a numeric value from an interface map;
accepts float64/float32/int/int64 (constructors `.f`, `.i`), rejects others. -/
def GetFloat64 (m : List (String × GoVal)) (key : String) : Option ℚ :=
  match mapGet m key with
  | some (GoVal.f q) => some q
  | some (GoVal.i n) => some (n : ℚ)
  | _ => none

/-- Embeds `domain.GetString`: extract a string value from an interface map. -/
def GetString (m : List (String × GoVal)) (key : String) : Option String :=
  match mapGet m key with
  | some (GoVal.s str) => some str
  | _ => none

/-- Embeds `domain.GetMap`: extract a nested `map[string]interface\x7b\x7d`. -/
def GetMap (m : List (String × GoVal)) (key : String) :
    Option (List (String × GoVal)) :=
  match mapGet m key with
  | some (GoVal.m inner) => some inner
  | _ => none

/-- Go's conversion `int(x)` of a float64: truncation toward zero. -/
def goInt (q : ℚ) : ℤ :=
  if 0 ≤ q then ⌊q⌋ else ⌈q⌉

/-- Embeds `domain.RoundToTwoDecimals`: `float64(int(val*100 + 0.5)) / 100`.
Note the Go `int(...)` conversion truncates toward zero. -/
def RoundToTwoDecimals (val : ℚ) : ℚ :=
  (goInt (val * 100 + 1/2) : ℚ) / 100

/-- Embeds `domain.ApplyBounds`: clamp `price` by `min`/`max`, where a bound of `0`
(or below) is treated as unset. -/
def ApplyBounds (price min max : ℚ) : ℚ :=
  if 0 < min ∧ price < min then min
  else if 0 < max ∧ price > max then max
  else price

/-- Embeds `domain.ValidateStrategy`: the four supported strategy identifiers. -/
def ValidateStrategy (strategy : String) : Bool :=
  strategy = "cost_plus" ∨ strategy = "geographic" ∨
    strategy = "rule_based" ∨ strategy = "time_based"

/-- Error kinds of the pricing domain (`domain.Err*` sentinel errors plus the
`fmt.Errorf` cases that wrap none of them). -/
inductive GoErr : Type where
  | invalidStrategy
  | missingRequiredField (field : String)
  | invalidFieldValue (msg : String)
  | configurationInvalid (msg : String)
  | negativePrice
  | other (msg : String)
deriving DecidableEq

/-- Model of Go `time.Time` restricted to the observations the pricing code
makes: weekday, hour, minute, and the `IsZero` test. -/
structure GoTime : Type where
  weekday : Fin 7      -- 0 = Sunday, ..., 6 = Saturday, as in Go time.Weekday
  hour : Nat
  minute : Nat
  isZero : Bool
deriving DecidableEq

/-- Embeds `time.Weekday.String()` for the seven weekday values. -/
def weekdayString : Fin 7 → String
  | 0 => "Sunday"
  | 1 => "Monday"
  | 2 => "Tuesday"
  | 3 => "Wednesday"
  | 4 => "Thursday"
  | 5 => "Friday"
  | 6 => "Saturday"

/-- Embeds `fmt.Sprintf "%02d"` on a natural number. -/
def pad2 (n : Nat) : String :=
  if n < 10 then "0" ++ toString n else toString n

/-- Lexicographic (byte-wise, here char-wise; identical on ASCII) string
comparison, as used by Go's `<=` on strings. -/
def goStrLe (x y : String) : Bool :=
  goCharsLe x.data y.data
where
  goCharsLe : List Char → List Char → Bool
    | [], _ => true
    | _ :: _, [] => false
    | cx :: xs, cy :: ys =>
      if cx = cy then goCharsLe xs ys
      else decide (cx < cy)

/-- Go `strings.TrimSpace` (ASCII whitespace; the code only meets ASCII
location and condition strings). -/
def goTrimSpace (s : String) : String :=
  String.mk
    (((s.data.dropWhile Char.isWhitespace).reverse.dropWhile
      Char.isWhitespace).reverse)

/-- Go `strings.ToUpper` (ASCII fragment). -/
def goToUpper (s : String) : String :=
  String.mk (s.data.map Char.toUpper)

/-- Go `strings.ToLower` (ASCII fragment). -/
def goToLower (s : String) : String :=
  String.mk (s.data.map Char.toLower)

/-- Go `strings.Contains(s, string(c))` for a one-character substring. -/
def goContains (s : String) (c : Char) : Bool :=
  s.data.any fun x => x = c

/-- Split a character list at every occurrence of the one-character
separator, as Go's `strings.Split` does. -/
def splitOn1 (a : Char) : List Char → List (List Char)
  | [] => [[]]
  | x :: rest =>
    if x = a then [] :: splitOn1 a rest
    else
      match splitOn1 a rest with
      | [] => [[x]]
      | chunk :: more => (x :: chunk) :: more

/-- Split a character list at every (leftmost-first, non-overlapping)
occurrence of the two-character separator `a b`, as Go's `strings.Split`
does. -/
def splitOn2 (a b : Char) : List Char → List (List Char)
  | [] => [[]]
  | [x] => [[x]]
  | x :: y :: rest =>
    if x = a ∧ y = b then [] :: splitOn2 a b rest
    else
      match splitOn2 a b (y :: rest) with
      | [] => [[x]]
      | chunk :: more => (x :: chunk) :: more

/-- Embeds `strings.Split` with a one-character separator, on strings. -/
def goSplit1 (s : String) (a : Char) : List String :=
  (splitOn1 a s.data).map String.mk

/-- Embeds `strings.Split` with a two-character separator, on strings. -/
def goSplit2 (s : String) (a b : Char) : List String :=
  (splitOn2 a b s.data).map String.mk

/-- Parse a non-empty all-digit string as a natural number (the successful
cases of the digit fields of Go's `time.Parse`). -/
def digitsToNat? (s : String) : Option Nat :=
  if s.data ≠ [] ∧ s.data.all Char.isDigit then
    some (s.data.foldl (fun a c => a * 10 + (c.toNat - 48)) 0)
  else none

/-- Embeds `domain.PricingRequest`, restricted to the fields the engine and the
strategies read (`ProductSKU` and `RequestID` are never consulted by the
calculation code). -/
structure PricingRequest : Type where
  strategy : String
  ruleID : Option String
  inputs : List (String × GoVal)
  requestedAt : GoTime

/-- Embeds `domain.PricingResponse`, restricted to the fields the claims are about.
The `Breakdown` diagnostics, `CalculatedAt` (wall clock) and the free-form
`Metadata` map are not modelled. -/
structure PricingResponse : Type where
  finalPrice : ℚ
  originalPrice : ℚ
  currency : String
  strategy : String
  appliedRuleID : Option String
deriving DecidableEq

/-! ### CostPlusStrategy (service/pricing_engine.go) -/

/-- Embeds `getCurrency`: currency from inputs, else config, else "USD". -/
def getCurrency (req : PricingRequest) (config : List (String × GoVal)) :
    String :=
  match GetString req.inputs "currency" with
  | some c => c
  | none =>
    match GetString config "currency" with
    | some c => c
    | none => "USD"

/-- Resolution of `markup_type` in `CostPlusStrategy.Calculate`: inputs, else
config, else `"percentage"` (an empty string counts as absent, since Go's
`GetString` returns `""` both for a missing key and for an empty value). -/
def costPlusMarkupType (req : PricingRequest)
    (config : List (String × GoVal)) : String :=
  let mt := (GetString req.inputs "markup_type").getD ""
  if mt = "" then
    let mtc := (GetString config "markup_type").getD ""
    if mtc = "" then "percentage" else mtc
  else mt

/-- Resolution of `markup_value`: request inputs first, else config. -/
def costPlusMarkupValue (req : PricingRequest)
    (config : List (String × GoVal)) : Option ℚ :=
  match GetFloat64 req.inputs "markup_value" with
  | some v => some v
  | none => GetFloat64 config "markup_value"

/-- Resolution of `tax_rate`: inputs first; a value of `0` (which is also what
a missing key yields) falls through to config. -/
def costPlusTaxRate (req : PricingRequest)
    (config : List (String × GoVal)) : ℚ :=
  let t := (GetFloat64 req.inputs "tax_rate").getD 0
  if t = 0 then (GetFloat64 config "tax_rate").getD 0 else t

/-- Embeds `CostPlusStrategy.Validate`. -/
def costPlusValidate (config : List (String × GoVal)) : Except GoErr Unit :=
  match GetFloat64 config "markup_value" with
  | some mv =>
    if mv < 0 then Except.error (GoErr.other "markup_value cannot be negative")
    else
      match GetFloat64 config "tax_rate" with
      | some tr =>
        if tr < 0 ∨ tr > 1 then
          Except.error (GoErr.other "tax_rate must be between 0 and 1")
        else Except.ok ()
      | none => Except.ok ()
  | none =>
    match GetFloat64 config "tax_rate" with
    | some tr =>
      if tr < 0 ∨ tr > 1 then
        Except.error (GoErr.other "tax_rate must be between 0 and 1")
      else Except.ok ()
    | none => Except.ok ()

/-- Embeds `CostPlusStrategy.Calculate`. -/
def costPlusCalculate (req : PricingRequest)
    (config : List (String × GoVal)) : Except GoErr PricingResponse :=
  match GetFloat64 req.inputs "base_cost" with
  | none => Except.error (GoErr.missingRequiredField "base_cost")
  | some baseCost =>
    if baseCost < 0 then
      Except.error (GoErr.invalidFieldValue "base_cost cannot be negative")
    else
      let markupType := costPlusMarkupType req config
      match costPlusMarkupValue req config with
      | none => Except.error (GoErr.missingRequiredField "markup_value")
      | some markupValue =>
        let taxRate := costPlusTaxRate req config
        if markupType = "percentage" ∨ markupType = "fixed" then
          let markupAmount :=
            if markupType = "percentage" then baseCost * (markupValue / 100)
            else markupValue
          let subtotal := baseCost + markupAmount
          let taxAmount := subtotal * taxRate
          let finalPrice := subtotal + taxAmount
          let minPrice := (GetFloat64 config "min_price").getD 0
          let maxPrice := (GetFloat64 config "max_price").getD 0
          Except.ok
            { finalPrice := ApplyBounds finalPrice minPrice maxPrice
              originalPrice := baseCost
              currency := getCurrency req config
              strategy := ""
              appliedRuleID := none }
        else Except.error (GoErr.invalidFieldValue "invalid markup_type")

/-! ### GeographicStrategy (part_017) -/

/-- Embeds `convertToFloat`: numeric `interface\x7b\x7d` values to float64. -/
def convertToFloat : GoVal → Option ℚ
  | GoVal.f q => some q
  | GoVal.i n => some (n : ℚ)
  | _ => none

/-- Go `strings.ToUpper` composed with `strings.TrimSpace` as applied to
locations (ASCII fragment; the claims only involve ASCII location codes). -/
def normalizeLocation (location : String) : String :=
  goToUpper (goTrimSpace location)

/-- The country code of a location: `strings.Split(location, "-")[0]`. -/
def countryCode (location : String) : String :=
  (goSplit1 location '-').headD ""

/-- Embeds `findRegionalMultiplier`: exact match, then country code when the location
contains a hyphen, then the `"default"` key, then `1.0` with region
`"unknown"`. -/
def findRegionalMultiplier (location : String)
    (multipliers : List (String × GoVal)) : ℚ × String :=
  let loc := normalizeLocation location
  match mapGet multipliers loc with
  | some v =>
    match convertToFloat v with
    | some mult => (mult, loc)
    | none => findRegionalMultiplierCountry loc multipliers
  | none => findRegionalMultiplierCountry loc multipliers
where
  /-- The country-code tier and below. -/
  findRegionalMultiplierCountry (loc : String)
      (multipliers : List (String × GoVal)) : ℚ × String :=
    if goContains loc '-' then
      match mapGet multipliers (countryCode loc) with
      | some v =>
        match convertToFloat v with
        | some mult => (mult, countryCode loc)
        | none => findRegionalMultiplierDefault multipliers
      | none => findRegionalMultiplierDefault multipliers
    else findRegionalMultiplierDefault multipliers
  /-- The `"default"` tier and the final fallback. -/
  findRegionalMultiplierDefault (multipliers : List (String × GoVal)) :
      ℚ × String :=
    match mapGet multipliers "default" with
    | some v =>
      match convertToFloat v with
      | some mult => (mult, "default")
      | none => (1, "unknown")
    | none => (1, "unknown")

/-- Embeds `getCurrencyForRegion`: exact match in `currency_map`, then country code,
then `default_currency` from config, then `"USD"`.  (Note: unlike the
multiplier resolution there is no `"default"`-key tier.) -/
def getCurrencyForRegion (location : String)
    (config : List (String × GoVal)) : String :=
  let loc := normalizeLocation location
  match GetMap config "currency_map" with
  | some currencyMap =>
    match GetString currencyMap loc with
    | some c => c
    | none =>
      if goContains loc '-' then
        match GetString currencyMap (countryCode loc) with
        | some c => c
        | none => getCurrencyDefault config
      else getCurrencyDefault config
  | none => getCurrencyDefault config
where
  /-- The `default_currency`-from-config tier and the `"USD"` fallback. -/
  getCurrencyDefault (config : List (String × GoVal)) : String :=
    match GetString config "default_currency" with
    | some c => c
    | none => "USD"

/-- Embeds `GeographicStrategy.Validate`: `regional_multipliers` must be a non-empty
map whose values are all positive numbers. -/
def geographicValidate (config : List (String × GoVal)) : Except GoErr Unit :=
  match GetMap config "regional_multipliers" with
  | none =>
    Except.error (GoErr.configurationInvalid "regional_multipliers map is required")
  | some multipliers =>
    if multipliers.isEmpty then
      Except.error (GoErr.configurationInvalid "regional_multipliers map is required")
    else
      geographicValidateEntries multipliers
where
  /-- The per-entry loop: every multiplier must be numeric and positive. -/
  geographicValidateEntries : List (String × GoVal) → Except GoErr Unit
    | [] => Except.ok ()
    | (region, v) :: rest =>
      match convertToFloat v with
      | none =>
        Except.error (GoErr.other ("regional_multipliers[" ++ region ++ "] must be a number"))
      | some mult =>
        if mult ≤ 0 then
          Except.error (GoErr.other ("regional_multipliers[" ++ region ++ "] must be positive"))
        else geographicValidateEntries rest

/-- Embeds `GeographicStrategy.Calculate`. -/
def geographicCalculate (req : PricingRequest)
    (config : List (String × GoVal)) : Except GoErr PricingResponse :=
  match GetFloat64 req.inputs "base_price" with
  | none => Except.error (GoErr.missingRequiredField "base_price")
  | some basePrice =>
    if basePrice < 0 then
      Except.error (GoErr.invalidFieldValue "base_price cannot be negative")
    else
      match GetString req.inputs "location" with
      | none => Except.error (GoErr.missingRequiredField "location")
      | some location =>
        if location = "" then
          Except.error (GoErr.missingRequiredField "location")
        else
          let multipliers := (GetMap config "regional_multipliers").getD []
          let mr := findRegionalMultiplier location multipliers
          let finalPrice := basePrice * mr.1
          let minPrice := (GetFloat64 config "min_price").getD 0
          let maxPrice := (GetFloat64 config "max_price").getD 0
          let bounded := ApplyBounds finalPrice minPrice maxPrice
          Except.ok
            { finalPrice := RoundToTwoDecimals bounded
              originalPrice := basePrice
              currency := getCurrencyForRegion location config
              strategy := ""
              appliedRuleID := none }

/-! ### TimeBasedStrategy (part_016) -/

/-- Embeds `service.TimeWindow`. -/
structure TimeWindow : Type where
  days : List String
  startTime : String
  endTime : String
  multiplier : ℚ
deriving DecidableEq

/-- Embeds `isValidTimeFormat`: exactly one `:`, and `time.Parse("15:04", ...)`
succeeds — a 1-or-2 digit hour in 0..23 and an exactly-2-digit minute in
0..59 (exponent-free decimal digits only). -/
def isValidTimeFormat (t : String) : Bool :=
  match goSplit1 t ':' with
  | [h, m] =>
    match digitsToNat? h, digitsToNat? m with
    | some hv, some mv =>
      decide ((h.length = 1 ∨ h.length = 2) ∧ hv ≤ 23 ∧ m.length = 2 ∧ mv ≤ 59)
    | _, _ => false
  | _ => false

/-- The `days` parsing loop inside `findActiveWindows`: keep the string
entries of the `days` array, lowercased. -/
def parseDays : Option GoVal → List String
  | some (GoVal.arr xs) =>
    xs.filterMap fun v =>
      match v with
      | GoVal.s d => some (goToLower d)
      | _ => none
  | _ => []

/-- The per-window parsing inside `findActiveWindows`: multiplier defaults to
1.0, days lowercased, times default to `""`. -/
def parseTimeWindow (wm : List (String × GoVal)) : TimeWindow :=
  { multiplier := (GetFloat64 wm "multiplier").getD 1
    days := parseDays (mapGet wm "days")
    startTime := (GetString wm "start_time").getD ""
    endTime := (GetString wm "end_time").getD "" }

/-- Embeds `TimeBasedStrategy.windowApplies`. -/
def windowApplies (dayName currentTime : String) (window : TimeWindow) :
    Bool :=
  let dayMatches :=
    window.days.isEmpty || window.days.any (fun d => goToLower d = dayName)
  if !dayMatches then false
  else if window.startTime = "" || window.endTime = "" then true
  else goStrLe window.startTime currentTime && goStrLe currentTime window.endTime

/-- The lowercased English weekday name of a timestamp,
`strings.ToLower(timestamp.Weekday().String())`. -/
def dayNameOf (timestamp : GoTime) : String :=
  goToLower (weekdayString timestamp.weekday)

/-- The `HH:MM` string of a timestamp,
`fmt.Sprintf("%02d:%02d", t.Hour(), t.Minute())`. -/
def currentTimeOf (timestamp : GoTime) : String :=
  pad2 timestamp.hour ++ ":" ++ pad2 timestamp.minute

/-- Embeds `TimeBasedStrategy.findActiveWindows`: collect the windows that apply, in
list order, compounding their multipliers multiplicatively. -/
def findActiveWindows (timestamp : GoTime) (windows : List GoVal) :
    List TimeWindow × ℚ :=
  let dayName := dayNameOf timestamp
  let currentTime := currentTimeOf timestamp
  windows.foldl
    (fun acc wv =>
      match wv with
      | GoVal.m wm =>
        let tw := parseTimeWindow wm
        if windowApplies dayName currentTime tw then
          (acc.1 ++ [tw], acc.2 * tw.multiplier)
        else acc
      | _ => acc)
    ([], 1)

/-- Embeds `calculateSurgeMultiplier`: linear surge above the threshold, capped at
3.0. -/
def calculateSurgeMultiplier (currentDemand baseThreshold : ℚ) : ℚ :=
  if currentDemand ≤ baseThreshold then 1
  else
    let surge := 1 + (currentDemand - baseThreshold) * (1/2)
    if surge > 3 then 3 else surge

/-- Embeds `TimeBasedStrategy.Validate`. -/
def timeBasedValidate (config : List (String × GoVal)) : Except GoErr Unit :=
  match mapGet config "time_windows" with
  | none =>
    Except.error (GoErr.configurationInvalid "time_windows array is required")
  | some (GoVal.arr windows) =>
    if windows.isEmpty then
      Except.error (GoErr.other "time_windows array cannot be empty")
    else timeBasedValidateWindows windows
  | some _ => Except.error (GoErr.other "time_windows must be an array")
where
  /-- The per-window validation loop. -/
  timeBasedValidateWindows : List GoVal → Except GoErr Unit
    | [] => Except.ok ()
    | GoVal.m wm :: rest =>
      if (mapGet wm "multiplier").isNone then
        Except.error (GoErr.other "time_windows entry missing required field: multiplier")
      else
        match GetString wm "start_time" with
        | some st =>
          if !isValidTimeFormat st then
            Except.error (GoErr.other "time_windows entry has invalid start_time format")
          else timeBasedValidateEnd wm rest
        | none => timeBasedValidateEnd wm rest
    | _ :: _ =>
      Except.error (GoErr.other "time_windows entry must be an object")
  /-- The end_time half of the per-window validation. -/
  timeBasedValidateEnd (wm : List (String × GoVal)) (rest : List GoVal) :
      Except GoErr Unit :=
    match GetString wm "end_time" with
    | some et =>
      if !isValidTimeFormat et then
        Except.error (GoErr.other "time_windows entry has invalid end_time format")
      else timeBasedValidateWindows rest
    | none => timeBasedValidateWindows rest

/-- The effective timestamp of `TimeBasedStrategy.Calculate`: a `timestamp`
string input that parses as RFC3339 overrides `req.RequestedAt`; a missing
entry, a non-string entry, or an unparseable string silently falls back to
`req.RequestedAt`. -/
def tbEffectiveTimestamp (parse : String → Option GoTime)
    (req : PricingRequest) : GoTime :=
  match GetString req.inputs "timestamp" with
  | some str =>
    match parse str with
    | some t => t
    | none => req.requestedAt
  | none => req.requestedAt

/-- The surge-multiplier resolution of `TimeBasedStrategy.Calculate`:
only active when `current_demand` is supplied and `surge_enabled` is the
boolean `true` in config; a zero (or absent) `base_surge_threshold` defaults
to 1.0. -/
def tbSurgeMultiplier (req : PricingRequest)
    (config : List (String × GoVal)) : ℚ :=
  match GetFloat64 req.inputs "current_demand" with
  | some currentDemand =>
    let surgeEnabled :=
      match mapGet config "surge_enabled" with
      | some (GoVal.b bv) => bv
      | _ => false
    if surgeEnabled then
      let threshold0 := (GetFloat64 config "base_surge_threshold").getD 0
      let threshold := if threshold0 = 0 then 1 else threshold0
      calculateSurgeMultiplier currentDemand threshold
    else 1
  | none => 1

/-- Embeds `TimeBasedStrategy.Calculate` (the `Breakdown` diagnostics are not
modelled). -/
def timeBasedCalculate (parse : String → Option GoTime)
    (req : PricingRequest) (config : List (String × GoVal)) :
    Except GoErr PricingResponse :=
  match GetFloat64 req.inputs "base_price" with
  | none => Except.error (GoErr.missingRequiredField "base_price")
  | some basePrice =>
    if basePrice < 0 then
      Except.error (GoErr.invalidFieldValue "base_price cannot be negative")
    else
      let timestamp := tbEffectiveTimestamp parse req
      let windows :=
        match mapGet config "time_windows" with
        | some (GoVal.arr ws) => ws
        | _ => []
      let active := findActiveWindows timestamp windows
      let surgeMultiplier := tbSurgeMultiplier req config
      let combinedMultiplier := active.2 * surgeMultiplier
      let finalPrice := basePrice * combinedMultiplier
      let minPrice := (GetFloat64 config "min_price").getD 0
      let maxPrice := (GetFloat64 config "max_price").getD 0
      Except.ok
        { finalPrice := ApplyBounds finalPrice minPrice maxPrice
          originalPrice := basePrice
          currency := getCurrency req config
          strategy := ""
          appliedRuleID := none }

/-! ### RuleBasedStrategy (service/rule_based.go) -/

/-- Embeds `service.PricingRule` (the rule-based strategy's inline rule record). -/
structure RBRule : Type where
  condition : String
  action : String
  value : ℚ
  priority : ℤ
deriving DecidableEq

/-- The rule parsing inside `RuleBasedStrategy.Calculate`: missing fields get
Go zero values; `priority` comes from a bare `int` type assertion. -/
def parseRBRule (rm : List (String × GoVal)) : RBRule :=
  { condition := (GetString rm "condition").getD ""
    action := (GetString rm "action").getD ""
    value := (GetFloat64 rm "value").getD 0
    priority :=
      match mapGet rm "priority" with
      | some (GoVal.i n) => n
      | _ => 0 }

/-- Embeds `parseFloat` (`fmt.Sscanf "%f"`): leading optional sign then a decimal
literal `digits[.digits]` with at least one digit; trailing input is ignored.
(Exponent forms, accepted by Sscanf, are not modelled; no claim depends on
them.) -/
def parseGoFloat (s : String) : Option ℚ :=
  let chars := s.data
  let afterSign :=
    match chars with
    | '-' :: rest => (true, rest)
    | '+' :: rest => (false, rest)
    | _ => (false, chars)
  let intDigits := afterSign.2.takeWhile Char.isDigit
  let afterInt := afterSign.2.dropWhile Char.isDigit
  let fracDigits :=
    match afterInt with
    | '.' :: rest => rest.takeWhile Char.isDigit
    | _ => []
  if intDigits.isEmpty ∧ fracDigits.isEmpty then none
  else
    let ip : ℚ := (intDigits.foldl (fun acc c => acc * 10 + (c.toNat - 48)) 0 : ℕ)
    let fpNum : ℚ := (fracDigits.foldl (fun acc c => acc * 10 + (c.toNat - 48)) 0 : ℕ)
    let fp : ℚ := fpNum / ((10 : ℚ) ^ fracDigits.length)
    let mag := ip + fp
    some (if afterSign.1 then -mag else mag)

/-- Embeds `fmt.Sprintf "%v"` on an interface value, as used for the string-equality
fallback of `compareValues`.  Faithful for strings, ints and bools (the cases
that reach the fallback in practice); the float rendering is a placeholder and
no claim depends on it, since a numeric field only reaches the fallback when
the comparison target fails to parse as a number. -/
def goSprintfV : GoVal → String
  | GoVal.s str => str
  | GoVal.i n => toString n
  | GoVal.b true => "true"
  | GoVal.b false => "false"
  | GoVal.f q => toString q
  | GoVal.m _ => "map"
  | GoVal.arr _ => "array"
  | GoVal.null => "<nil>"

/-- Embeds `strings.Trim(targetValue, "\x22'")`: strip leading and trailing quote
characters. -/
def trimQuotes (s : String) : String :=
  let isQuote : Char → Bool := fun c => c = '\x22' || c = '\''
  String.mk ((s.data.dropWhile isQuote).reverse.dropWhile isQuote |>.reverse)

/-- Embeds `RuleBasedStrategy.compareValues`: numeric comparison when both sides are
numeric, else string equality/inequality. -/
def compareValues (fieldName targetValue : String)
    (context : List (String × GoVal)) (op : String) : Bool :=
  let fn := goTrimSpace fieldName
  let tv := goTrimSpace targetValue
  match mapGet context fn with
  | none => false
  | some fieldValue =>
    let numeric :=
      match convertToFloat fieldValue with
      | some fieldNum =>
        match parseGoFloat tv with
        | some targetNum =>
          some (if op = ">" then decide (fieldNum > targetNum)
            else if op = "<" then decide (fieldNum < targetNum)
            else if op = ">=" then decide (fieldNum ≥ targetNum)
            else if op = "<=" then decide (fieldNum ≤ targetNum)
            else if op = "==" then decide (fieldNum = targetNum)
            else if op = "!=" then decide (fieldNum ≠ targetNum)
            else false)
        | none => none
      | none => none
    match numeric with
    | some r => r
    | none =>
      let fieldStr := goSprintfV fieldValue
      let targetStr := trimQuotes tv
      if op = "==" then fieldStr = targetStr
      else if op = "!=" then fieldStr ≠ targetStr
      else false

/-- Embeds `RuleBasedStrategy.evaluateCondition`: `"true"`/`"always"`, else a single
`field op value` comparison, trying the operators in the source's order. -/
def evaluateCondition (condition : String)
    (context : List (String × GoVal)) : Bool :=
  let c := goTrimSpace condition
  if c = "true" ∨ c = "always" then true
  else
    match goSplit2 c '>' '=' with
    | [a, b] => compareValues a b context ">="
    | _ =>
      match goSplit2 c '<' '=' with
      | [a, b] => compareValues a b context "<="
      | _ =>
        match goSplit2 c '=' '=' with
        | [a, b] => compareValues a b context "=="
        | _ =>
          match goSplit2 c '!' '=' with
          | [a, b] => compareValues a b context "!="
          | _ =>
            match goSplit1 c '>' with
            | [a, b] => compareValues a b context ">"
            | _ =>
              match goSplit1 c '<' with
              | [a, b] => compareValues a b context "<"
              | _ => false

/-- Embeds `RuleBasedStrategy.applyAction`: the five action kinds; anything else
leaves the price unchanged. -/
def applyAction (currentPrice : ℚ) (rule : RBRule) : ℚ :=
  if rule.action = "apply_discount" then
    currentPrice - currentPrice * (rule.value / 100)
  else if rule.action = "apply_markup" then
    currentPrice + currentPrice * (rule.value / 100)
  else if rule.action = "set_multiplier" then
    currentPrice * rule.value
  else if rule.action = "add_fixed_amount" then
    currentPrice + rule.value
  else if rule.action = "set_price" then
    rule.value
  else currentPrice

/-- One iteration of the rule loop of `RuleBasedStrategy.Calculate`: a non-map
entry or a non-matching condition leaves the running price unchanged,
otherwise the rule's action is applied to it. -/
def rbStep (context : List (String × GoVal)) (currentPrice : ℚ)
    (rv : GoVal) : ℚ :=
  match rv with
  | GoVal.m rm =>
    let rule := parseRBRule rm
    if evaluateCondition rule.condition context then
      applyAction currentPrice rule
    else currentPrice
  | _ => currentPrice

/-- The rule loop of `RuleBasedStrategy.Calculate`: sequentially, in list
order, apply each matched rule's action to the running price. -/
def runRules (context : List (String × GoVal)) (price : ℚ)
    (rules : List GoVal) : ℚ :=
  rules.foldl (rbStep context) price

/-- Embeds `RuleBasedStrategy.Validate`. -/
def ruleBasedValidate (config : List (String × GoVal)) : Except GoErr Unit :=
  match mapGet config "rules" with
  | none => Except.error (GoErr.configurationInvalid "rules array is required")
  | some (GoVal.arr rules) =>
    if rules.isEmpty then
      Except.error (GoErr.other "rules array cannot be empty")
    else ruleBasedValidateRules rules
  | some _ => Except.error (GoErr.other "rules must be an array")
where
  /-- The per-rule validation loop. -/
  ruleBasedValidateRules : List GoVal → Except GoErr Unit
    | [] => Except.ok ()
    | GoVal.m rm :: rest =>
      if (GetString rm "condition").isNone then
        Except.error (GoErr.other "rules entry missing required field: condition")
      else if (GetString rm "action").isNone then
        Except.error (GoErr.other "rules entry missing required field: action")
      else if (GetFloat64 rm "value").isNone then
        Except.error (GoErr.other "rules entry missing required field: value")
      else
        let action := (GetString rm "action").getD ""
        if action = "apply_discount" ∨ action = "apply_markup" ∨
            action = "set_multiplier" ∨ action = "add_fixed_amount" ∨
            action = "set_price" then
          ruleBasedValidateRules rest
        else Except.error (GoErr.other "rules entry has invalid action")
    | _ :: _ => Except.error (GoErr.other "rules entry must be an object")

/-- Embeds `RuleBasedStrategy.Calculate` (the `Breakdown` diagnostics are not
modelled). -/
def ruleBasedCalculate (req : PricingRequest)
    (config : List (String × GoVal)) : Except GoErr PricingResponse :=
  match GetFloat64 req.inputs "base_price" with
  | none => Except.error (GoErr.missingRequiredField "base_price")
  | some basePrice =>
    if basePrice < 0 then
      Except.error (GoErr.invalidFieldValue "base_price cannot be negative")
    else
      let context := req.inputs
      let rules :=
        match mapGet config "rules" with
        | some (GoVal.arr rs) => rs
        | _ => []
      let finalPrice := runRules context basePrice rules
      let minPrice := (GetFloat64 config "min_price").getD 0
      let maxPrice := (GetFloat64 config "max_price").getD 0
      Except.ok
        { finalPrice := ApplyBounds finalPrice minPrice maxPrice
          originalPrice := basePrice
          currency := getCurrency req config
          strategy := ""
          appliedRuleID := none }

/-! ### PricingEngine (service/pricing_engine.go) -/

/-- The engine's dispatch to `strategy.Validate`; all four strategies are
registered by `NewPricingEngine`. -/
def strategyValidate (name : String) (config : List (String × GoVal)) :
    Except GoErr Unit :=
  if name = "cost_plus" then costPlusValidate config
  else if name = "geographic" then geographicValidate config
  else if name = "time_based" then timeBasedValidate config
  else if name = "rule_based" then ruleBasedValidate config
  else Except.error (GoErr.other "strategy not registered")

/-- The engine's dispatch to `strategy.Calculate`. -/
def strategyCalculate (parse : String → Option GoTime) (name : String)
    (req : PricingRequest) (config : List (String × GoVal)) :
    Except GoErr PricingResponse :=
  if name = "cost_plus" then costPlusCalculate req config
  else if name = "geographic" then geographicCalculate req config
  else if name = "time_based" then timeBasedCalculate parse req config
  else if name = "rule_based" then ruleBasedCalculate req config
  else Except.error (GoErr.other "strategy not registered")

/-- The engine's defaulting of `req.RequestedAt` to `time.Now()` when zero. -/
def effectiveRequest (now : GoTime) (req : PricingRequest) : PricingRequest :=
  if req.requestedAt.isZero then { req with requestedAt := now } else req

/-- Embeds `PricingEngine.Calculate`: validate the strategy name, validate the
config, default the timestamp, run the strategy, set response metadata, round
the final price to two decimals, and reject a negative rounded price with
`ErrNegativePrice`. -/
def engineCalculate (parse : String → Option GoTime) (now : GoTime)
    (req : PricingRequest) (config : List (String × GoVal)) :
    Except GoErr PricingResponse :=
  if ValidateStrategy req.strategy then
    match strategyValidate req.strategy config with
    | Except.error e => Except.error e
    | Except.ok _ =>
      match strategyCalculate parse req.strategy (effectiveRequest now req) config with
      | Except.error e => Except.error e
      | Except.ok response =>
        let rounded := RoundToTwoDecimals response.finalPrice
        if rounded < 0 then Except.error GoErr.negativePrice
        else
          Except.ok
            { response with
              strategy := req.strategy
              appliedRuleID := req.ruleID
              finalPrice := rounded }
  else Except.error GoErr.invalidStrategy

/-! ### Auxiliary definitions for the statements of the claims -/

/-- A lookup that succeeds exactly when the key is present with a numeric
value — the condition under which a tier of `findRegionalMultiplier`
resolves. -/
def numLookup (m : List (String × GoVal)) (key : String) : Option ℚ :=
  match mapGet m key with
  | some v => convertToFloat v
  | none => none

/-- The window list as parsed by `findActiveWindows` (non-map entries are
skipped). -/
def parseWindows (windows : List GoVal) : List TimeWindow :=
  windows.filterMap fun wv =>
    match wv with
    | GoVal.m wm => some (parseTimeWindow wm)
    | _ => none

/-- Modelled from the spec: the window-matching rule as the spec words it —
the time check passes only when the current time falls within
`[start_time, end_time]` or BOTH times are empty.  Used to compare against
the source's `windowApplies`. -/
def claimedWindowApplies (dayName currentTime : String) (window : TimeWindow) :
    Bool :=
  (window.days.isEmpty || window.days.any (fun d => goToLower d = dayName)) &&
    ((window.startTime = "" && window.endTime = "") ||
      (goStrLe window.startTime currentTime &&
        goStrLe currentTime window.endTime))

/-- Modelled from the spec: currency resolution as the claim words it — the
same exact → country → `"default"`-key precedence against `currency_map`,
then `default_currency`, then `"USD"`.  Used to compare against the source's
`getCurrencyForRegion`. -/
def claimedCurrencyForRegion (location : String)
    (config : List (String × GoVal)) : String :=
  let loc := normalizeLocation location
  let fallback :=
    match GetString config "default_currency" with
    | some c => c
    | none => "USD"
  match GetMap config "currency_map" with
  | some currencyMap =>
    match GetString currencyMap loc with
    | some c => c
    | none =>
      let tryDefault :=
        match GetString currencyMap "default" with
        | some c => c
        | none => fallback
      if goContains loc '-' then
        match GetString currencyMap (countryCode loc) with
        | some c => c
        | none => tryDefault
      else tryDefault
  | none => fallback

/-- Remove every binding of a key from an association list. -/
def mapRemove (m : List (String × GoVal)) (key : String) :
    List (String × GoVal) :=
  m.filter fun kv => kv.1 ≠ key

/-- Erase the `priority` field of a rule object (other values unchanged). -/
def erasePriority : GoVal → GoVal
  | GoVal.m rm => GoVal.m (mapRemove rm "priority")
  | v => v

/-- Erase the `priority` fields inside a `rules` array value. -/
def eraseRulesVal : GoVal → GoVal
  | GoVal.arr rs => GoVal.arr (rs.map erasePriority)
  | v => v

/-- Erase the `priority` fields of every rule in a rule-based config's
`rules` array. -/
def erasePrioritiesInConfig (config : List (String × GoVal)) :
    List (String × GoVal) :=
  config.map fun kv =>
    if kv.1 = "rules" then (kv.1, eraseRulesVal kv.2) else kv

/-- A concrete cost-plus request (base cost 100, 25% markup) used to
exercise the engine on a successful run. -/
def exReqOk : PricingRequest :=
  { strategy := "cost_plus", ruleID := none,
    inputs := [("base_cost", GoVal.f 100), ("markup_value", GoVal.f 25)],
    requestedAt := ⟨0, 0, 0, false⟩ }

/-- A concrete cost-plus request with a negative fixed markup from the
request inputs (input markups are not validated), driving the computed
price negative. -/
def exReqNeg : PricingRequest :=
  { strategy := "cost_plus", ruleID := none,
    inputs := [("base_cost", GoVal.f 100), ("markup_value", GoVal.f (-200)),
      ("markup_type", GoVal.s "fixed")],
    requestedAt := ⟨0, 0, 0, false⟩ }

/-! ## Theorems -/

/-- C2 (counterexample): `RoundToTwoDecimals` does NOT compute
`floor(x*100 + 0.5)/100`: at `x = -0.014` the Go `int(...)` conversion
truncates `-0.9` to `0` (giving `0.00`) while the floor formula gives
`-0.01`. -/
theorem roundToTwoDecimals_floor_counterexample :
    RoundToTwoDecimals (-7/500) ≠ (⌊((-7/500 : ℚ) * 100 + 1/2)⌋ : ℚ) / 100 := by
  have h1 : RoundToTwoDecimals (-7/500) = 0 := by
    simp only [RoundToTwoDecimals, goInt]
    norm_num
  have h2 : (⌊((-7/500 : ℚ) * 100 + 1/2)⌋ : ℚ) / 100 = -1/100 := by
    norm_num
  rw [h1, h2]
  norm_num

/-- C2 (amended): `RoundToTwoDecimals x` is `trunc(x*100 + 0.5)/100` with
truncation toward zero: it equals the floor formula whenever
`x*100 + 0.5 ≥ 0` (in particular for all `x ≥ 0`), equals the ceiling
formula when `x*100 + 0.5 < 0`, and at exact halfway points (where
`x*100 + 0.5` is an integer) it rounds toward positive infinity, to
`x + 1/200`. -/
theorem roundToTwoDecimals_trunc_characterization (x : ℚ) :
    (0 ≤ x * 100 + 1/2 →
      RoundToTwoDecimals x = (⌊x * 100 + 1/2⌋ : ℚ) / 100) ∧
    (x * 100 + 1/2 < 0 →
      RoundToTwoDecimals x = (⌈x * 100 + 1/2⌉ : ℚ) / 100) ∧
    (∀ k : ℤ, x * 100 + 1/2 = (k : ℚ) → RoundToTwoDecimals x = x + 1/200) := by
  refine ⟨?_, ?_, ?_⟩
  · intro h
    simp only [RoundToTwoDecimals, goInt]
    rw [if_pos h]
  · intro h
    simp only [RoundToTwoDecimals, goInt]
    rw [if_neg (not_le.mpr h)]
  · intro k hk
    have hg : goInt (x * 100 + 1/2) = k := by
      simp only [goInt]
      by_cases h : 0 ≤ x * 100 + 1/2
      · rw [if_pos h, hk, Int.floor_intCast]
      · rw [if_neg h, hk, Int.ceil_intCast]
    simp only [RoundToTwoDecimals]
    rw [hg, ← hk]
    ring

/-- Witness for C2 (amended), at the halfway point `x = -0.015` (rounds up to
`-0.01`) and at `x = -0.014` (ceiling formula). -/
theorem roundToTwoDecimals_trunc_witness :
    RoundToTwoDecimals (-3/200) = -3/200 + 1/200 ∧
    RoundToTwoDecimals (-7/500) = (⌈((-7/500 : ℚ) * 100 + 1/2)⌉ : ℚ) / 100 :=
  ⟨(roundToTwoDecimals_trunc_characterization (-3/200)).2.2 (-1) (by norm_num),
    (roundToTwoDecimals_trunc_characterization (-7/500)).2.1 (by norm_num)⟩

/-- C8: `ApplyBounds` returns `min` when `min > 0` and `price < min`;
otherwise `max` when `max > 0` and `price > max`; otherwise the price
unchanged — and a bound equal to `0` imposes no constraint on either side. -/
theorem applyBounds_characterization (price mn mx : ℚ) :
    (0 < mn → price < mn → ApplyBounds price mn mx = mn) ∧
    (¬(0 < mn ∧ price < mn) → 0 < mx → mx < price →
      ApplyBounds price mn mx = mx) ∧
    (¬(0 < mn ∧ price < mn) → ¬(0 < mx ∧ mx < price) →
      ApplyBounds price mn mx = price) ∧
    (ApplyBounds price 0 mx = if 0 < mx ∧ mx < price then mx else price) ∧
    (ApplyBounds price mn 0 = if 0 < mn ∧ price < mn then mn else price) := by
  refine ⟨?_, ?_, ?_, ?_, ?_⟩
  · intro h1 h2
    simp only [ApplyBounds]
    rw [if_pos ⟨h1, h2⟩]
  · intro h h1 h2
    simp only [ApplyBounds]
    rw [if_neg h, if_pos ⟨h1, h2⟩]
  · intro h h'
    simp only [ApplyBounds]
    rw [if_neg h, if_neg h']
  · simp only [ApplyBounds]
    rw [if_neg (by simp)]
  · simp only [ApplyBounds]
    by_cases h : 0 < mn ∧ price < mn
    · rw [if_pos h, if_pos h]
    · rw [if_neg h, if_neg h, if_neg (by simp)]

/-- Witness for C8 at concrete prices: clamped up, clamped down, untouched,
and a `min` of `0` imposing no floor on a negative price. -/
theorem applyBounds_characterization_witness :
    ApplyBounds 3 5 9 = 5 ∧ ApplyBounds 12 5 9 = 9 ∧ ApplyBounds 7 5 9 = 7 ∧
    ApplyBounds (-5) 0 9 = -5 := by
  refine ⟨(applyBounds_characterization 3 5 9).1 (by norm_num) (by norm_num),
    (applyBounds_characterization 12 5 9).2.1 (by decide) (by norm_num) (by norm_num),
    (applyBounds_characterization 7 5 9).2.2.1 (by decide) (by decide), ?_⟩
  rw [(applyBounds_characterization (-5) 0 9).2.2.2.1]
  norm_num

/-- C9 (counterexample): bounds clamping is NOT idempotent for all inputs:
with `min = 5 > max = 3` (both positive) and `x = 10`, one application gives
`3` and a second gives `5`. -/
theorem applyBounds_idempotent_counterexample :
    ApplyBounds (ApplyBounds 10 5 3) 5 3 ≠ ApplyBounds 10 5 3 := by
  decide

/-- C9 (amended): bounds clamping is idempotent whenever the bounds are
consistent — `min ≤ max`, or either bound is unset (`≤ 0`); it fails only
when both bounds are positive with `min > max`. -/
theorem applyBounds_idempotent (x mn mx : ℚ)
    (h : mn ≤ mx ∨ mx ≤ 0 ∨ mn ≤ 0) :
    ApplyBounds (ApplyBounds x mn mx) mn mx = ApplyBounds x mn mx := by
  unfold ApplyBounds
  split_ifs <;> first
    | rfl
    | (exfalso; rcases h with h | h | h <;>
        simp_all only [not_and, not_lt, gt_iff_lt] <;> linarith)

/-- Witness for C9 (amended) at `x = 10`, `min = 3`, `max = 5`. -/
theorem applyBounds_idempotent_witness :
    ApplyBounds (ApplyBounds 10 3 5) 3 5 = ApplyBounds 10 3 5 :=
  applyBounds_idempotent 10 3 5 (Or.inl (by norm_num))

/-- Unfolding of the exact-match tier of `findRegionalMultiplier`. -/
theorem findRegionalMultiplier_unfold (location : String)
    (multipliers : List (String × GoVal)) :
    findRegionalMultiplier location multipliers =
      match numLookup multipliers (normalizeLocation location) with
      | some m => (m, normalizeLocation location)
      | none =>
        findRegionalMultiplier.findRegionalMultiplierCountry
          (normalizeLocation location) multipliers := by
  simp only [findRegionalMultiplier, numLookup]
  cases hg : mapGet multipliers (normalizeLocation location) with
  | none => rfl
  | some v =>
    cases hc : convertToFloat v with
    | none => rfl
    | some m => rfl

/-- Unfolding of the country-code tier of `findRegionalMultiplier`. -/
theorem findRegionalMultiplierCountry_unfold (loc : String)
    (multipliers : List (String × GoVal)) :
    findRegionalMultiplier.findRegionalMultiplierCountry loc multipliers =
      if goContains loc '-' then
        match numLookup multipliers (countryCode loc) with
        | some m => (m, countryCode loc)
        | none => findRegionalMultiplier.findRegionalMultiplierDefault multipliers
      else findRegionalMultiplier.findRegionalMultiplierDefault multipliers := by
  simp only [findRegionalMultiplier.findRegionalMultiplierCountry, numLookup]
  by_cases hd : goContains loc '-'
  · rw [if_pos hd, if_pos hd]
    cases hg : mapGet multipliers (countryCode loc) with
    | none => rfl
    | some v =>
      cases hc : convertToFloat v with
      | none => rfl
      | some m => rfl
  · rw [if_neg hd, if_neg hd]

/-- Unfolding of the `"default"` tier of `findRegionalMultiplier`. -/
theorem findRegionalMultiplierDefault_unfold
    (multipliers : List (String × GoVal)) :
    findRegionalMultiplier.findRegionalMultiplierDefault multipliers =
      match numLookup multipliers "default" with
      | some m => (m, "default")
      | none => (1, "unknown") := by
  simp only [findRegionalMultiplier.findRegionalMultiplierDefault, numLookup]
  cases hg : mapGet multipliers "default" with
  | none => rfl
  | some v =>
    cases hc : convertToFloat v with
    | none => rfl
    | some m => rfl

/-- C4: the regional multiplier is resolved by a strict precedence chain on
the uppercased, trimmed location: exact key, then the before-hyphen country
code when the location contains a hyphen, then the `"default"` key, then the
fallback `(1.0, "unknown")`; an earlier tier that resolves (key present with
a numeric value) always wins over every later tier. -/
theorem findRegionalMultiplier_precedence (location : String)
    (multipliers : List (String × GoVal)) :
    (∀ m, numLookup multipliers (normalizeLocation location) = some m →
      findRegionalMultiplier location multipliers =
        (m, normalizeLocation location)) ∧
    (numLookup multipliers (normalizeLocation location) = none →
      goContains (normalizeLocation location) '-' = true →
      ∀ m, numLookup multipliers (countryCode (normalizeLocation location)) = some m →
        findRegionalMultiplier location multipliers =
          (m, countryCode (normalizeLocation location))) ∧
    (numLookup multipliers (normalizeLocation location) = none →
      (goContains (normalizeLocation location) '-' = false ∨
        numLookup multipliers (countryCode (normalizeLocation location)) = none) →
      ∀ m, numLookup multipliers "default" = some m →
        findRegionalMultiplier location multipliers = (m, "default")) ∧
    (numLookup multipliers (normalizeLocation location) = none →
      (goContains (normalizeLocation location) '-' = false ∨
        numLookup multipliers (countryCode (normalizeLocation location)) = none) →
      numLookup multipliers "default" = none →
      findRegionalMultiplier location multipliers = (1, "unknown")) := by
  have hdef :
      (goContains (normalizeLocation location) '-' = false ∨
        numLookup multipliers (countryCode (normalizeLocation location)) = none) →
      findRegionalMultiplier.findRegionalMultiplierCountry
          (normalizeLocation location) multipliers =
        findRegionalMultiplier.findRegionalMultiplierDefault multipliers := by
    intro h2
    rw [findRegionalMultiplierCountry_unfold]
    rcases h2 with h2 | h2
    · rw [if_neg (by simp [h2])]
    · by_cases hd : goContains (normalizeLocation location) '-'
      · rw [if_pos hd, h2]
      · rw [if_neg hd]
  refine ⟨?_, ?_, ?_, ?_⟩
  · intro m hm
    rw [findRegionalMultiplier_unfold, hm]
  · intro h1 hd m hm
    rw [findRegionalMultiplier_unfold, h1,
      findRegionalMultiplierCountry_unfold, if_pos hd, hm]
  · intro h1 h2 m hm
    rw [findRegionalMultiplier_unfold, h1, hdef h2,
      findRegionalMultiplierDefault_unfold, hm]
  · intro h1 h2 h3
    rw [findRegionalMultiplier_unfold, h1, hdef h2,
      findRegionalMultiplierDefault_unfold, h3]

/-- Witness for C4: all four precedence tiers on overlapping keys
(`"US-CA"`, `"US"`, `"default"` all present), including case folding and
trimming of the location. -/
theorem findRegionalMultiplier_precedence_witness :
    findRegionalMultiplier " us-ca "
      [("US-CA", GoVal.f 5), ("US", GoVal.f 3),
        ("default", GoVal.f 2)] = (5, "US-CA") ∧
    findRegionalMultiplier "US-TX"
      [("US-CA", GoVal.f 5), ("US", GoVal.f 3),
        ("default", GoVal.f 2)] = (3, "US") ∧
    findRegionalMultiplier "ZZ-AA"
      [("US-CA", GoVal.f 5), ("US", GoVal.f 3),
        ("default", GoVal.f 2)] = (2, "default") ∧
    findRegionalMultiplier "XX" [("US", GoVal.f 1)] = (1, "unknown") := by
  refine ⟨(findRegionalMultiplier_precedence _ _).1 _ (by decide),
    (findRegionalMultiplier_precedence _ _).2.1 (by decide) (by decide) _ (by decide),
    (findRegionalMultiplier_precedence _ _).2.2.1 (by decide)
      (Or.inr (by decide)) _ (by decide),
    (findRegionalMultiplier_precedence _ _).2.2.2 (by decide)
      (Or.inl (by decide)) (by decide)⟩

/-- The default-currency fallback of `getCurrencyForRegion` is
`default_currency` from config, else `"USD"`. -/
theorem getCurrencyDefault_eq (config : List (String × GoVal)) :
    getCurrencyForRegion.getCurrencyDefault config =
      (GetString config "default_currency").getD "USD" := by
  simp only [getCurrencyForRegion.getCurrencyDefault]
  cases GetString config "default_currency" with
  | none => rfl
  | some c => rfl

/-- C7 (counterexample): the code has NO `"default"`-key tier when resolving
the currency: with `currency_map = \x7b"default": "EUR"\x7d` and location `"XX"`,
the code returns `"USD"` while the claimed exact→country→default chain
returns `"EUR"`. -/
theorem getCurrencyForRegion_counterexample :
    getCurrencyForRegion "XX"
        [("currency_map", GoVal.m [("default", GoVal.s "EUR")])] = "USD" ∧
    claimedCurrencyForRegion "XX"
        [("currency_map", GoVal.m [("default", GoVal.s "EUR")])] = "EUR" ∧
    getCurrencyForRegion "XX"
        [("currency_map", GoVal.m [("default", GoVal.s "EUR")])] ≠
      claimedCurrencyForRegion "XX"
        [("currency_map", GoVal.m [("default", GoVal.s "EUR")])] := by
  refine ⟨by decide, by decide, by decide⟩

/-- C7 (amended): the response currency is resolved by exact match on the
normalized location in `currency_map`, then the before-hyphen country code
when the location contains a hyphen; if neither matches (there is no
`"default"`-key tier), the config's `default_currency` is used, and
otherwise `"USD"`. -/
theorem getCurrencyForRegion_precedence (location : String)
    (config : List (String × GoVal)) :
    (∀ cm c, GetMap config "currency_map" = some cm →
      GetString cm (normalizeLocation location) = some c →
      getCurrencyForRegion location config = c) ∧
    (∀ cm c, GetMap config "currency_map" = some cm →
      GetString cm (normalizeLocation location) = none →
      goContains (normalizeLocation location) '-' = true →
      GetString cm (countryCode (normalizeLocation location)) = some c →
      getCurrencyForRegion location config = c) ∧
    (∀ cm, GetMap config "currency_map" = some cm →
      GetString cm (normalizeLocation location) = none →
      (goContains (normalizeLocation location) '-' = false ∨
        GetString cm (countryCode (normalizeLocation location)) = none) →
      getCurrencyForRegion location config =
        (GetString config "default_currency").getD "USD") ∧
    (GetMap config "currency_map" = none →
      getCurrencyForRegion location config =
        (GetString config "default_currency").getD "USD") := by
  refine ⟨?_, ?_, ?_, ?_⟩
  · intro cm c hcm hc
    simp [getCurrencyForRegion, hcm, hc]
  · intro cm c hcm h1 hd hc
    simp [getCurrencyForRegion, hcm, h1, hd, hc]
  · intro cm hcm h1 h2
    rw [← getCurrencyDefault_eq]
    rcases h2 with h2 | h2
    · simp [getCurrencyForRegion, hcm, h1, h2]
    · by_cases hd : goContains (normalizeLocation location) '-'
      · simp [getCurrencyForRegion, hcm, h1, hd, h2]
      · simp [getCurrencyForRegion, hcm, h1, hd]
  · intro hcm
    rw [← getCurrencyDefault_eq]
    simp [getCurrencyForRegion, hcm]

/-- Witness for C7 (amended): all tiers at concrete configs — exact match,
country fallback, `default_currency`, and the `"USD"` fallback. -/
theorem getCurrencyForRegion_precedence_witness :
    getCurrencyForRegion "us-ca"
      [("currency_map", GoVal.m [("US-CA", GoVal.s "CAD"), ("US", GoVal.s "USX")])] = "CAD" ∧
    getCurrencyForRegion "US-TX"
      [("currency_map", GoVal.m [("US-CA", GoVal.s "CAD"), ("US", GoVal.s "USX")])] = "USX" ∧
    getCurrencyForRegion "XX"
      [("currency_map", GoVal.m [("US", GoVal.s "USX")]),
        ("default_currency", GoVal.s "EUR")] = "EUR" ∧
    getCurrencyForRegion "XX" [] = "USD" := by
  refine
    ⟨(getCurrencyForRegion_precedence "us-ca"
        [("currency_map", GoVal.m [("US-CA", GoVal.s "CAD"), ("US", GoVal.s "USX")])]).1
        [("US-CA", GoVal.s "CAD"), ("US", GoVal.s "USX")] "CAD"
        rfl (by decide),
      (getCurrencyForRegion_precedence "US-TX"
        [("currency_map", GoVal.m [("US-CA", GoVal.s "CAD"), ("US", GoVal.s "USX")])]).2.1
        [("US-CA", GoVal.s "CAD"), ("US", GoVal.s "USX")] "USX"
        rfl (by decide) (by decide) (by decide), ?_, ?_⟩
  · rw [(getCurrencyForRegion_precedence "XX"
      [("currency_map", GoVal.m [("US", GoVal.s "USX")]),
        ("default_currency", GoVal.s "EUR")]).2.2.1
      [("US", GoVal.s "USX")] rfl (by decide) (Or.inl (by decide))]
    decide
  · rw [(getCurrencyForRegion_precedence "XX" []).2.2.2 rfl]
    decide

/-- Unrolling lemma for the window loop of `findActiveWindows`: starting
from any accumulator, the loop appends exactly the applying windows in list
order and multiplies their multipliers into the accumulator. -/
theorem findActiveWindows_go (dayName currentTime : String)
    (windows : List GoVal) (acc : List TimeWindow × ℚ) :
    windows.foldl
      (fun acc wv =>
        match wv with
        | GoVal.m wm =>
          let tw := parseTimeWindow wm
          if windowApplies dayName currentTime tw then
            (acc.1 ++ [tw], acc.2 * tw.multiplier)
          else acc
        | _ => acc) acc =
    (acc.1 ++ (parseWindows windows).filter (windowApplies dayName currentTime),
      acc.2 * (((parseWindows windows).filter
        (windowApplies dayName currentTime)).map TimeWindow.multiplier).prod) := by
  induction windows generalizing acc with
  | nil => simp [parseWindows]
  | cons wv ws ih =>
    cases wv with
    | m wm =>
      rw [List.foldl_cons]
      by_cases h : windowApplies dayName currentTime (parseTimeWindow wm)
      · simp only [h, if_true, ih]
        simp [parseWindows, List.filter_cons, h, mul_assoc]
      · simp only [h, if_false, ih]
        simp [parseWindows, List.filter_cons, h]
    | f q => rw [List.foldl_cons]; exact ih acc
    | i n => rw [List.foldl_cons]; exact ih acc
    | s v => rw [List.foldl_cons]; exact ih acc
    | b v => rw [List.foldl_cons]; exact ih acc
    | arr l => rw [List.foldl_cons]; exact ih acc
    | null => rw [List.foldl_cons]; exact ih acc

/-- C5 (counterexample): a window whose `end_time` is empty but whose
`start_time` is `"17:00"` applies at 03:00 — the code treats a single empty
endpoint as all-day, contradicting the claimed rule that outside
`[start_time, end_time]` a window applies only when the times are (both)
empty. -/
theorem windowApplies_counterexample :
    windowApplies "monday" "03:00"
        { days := [], startTime := "17:00", endTime := "", multiplier := 2 } = true ∧
    claimedWindowApplies "monday" "03:00"
        { days := [], startTime := "17:00", endTime := "", multiplier := 2 } = false := by
  exact ⟨by decide, by decide⟩

/-- C5 (amended): a time window applies iff the lowercased weekday name is in
its (lowercased) `days` list or `days` is empty, AND the current `HH:MM`
string lies lexicographically in `[start_time, end_time]` or AT LEAST ONE of
the two times is empty; every applying window contributes, and
`findActiveWindows` compounds the applying windows' multipliers
multiplicatively in list order (their ordered product), not first-match-wins
and not by maximum. -/
theorem timeBased_windows_compound (timestamp : GoTime) (windows : List GoVal) :
    (∀ dayName currentTime w,
      windowApplies dayName currentTime w =
        ((w.days.isEmpty || w.days.any fun d => goToLower d = dayName) &&
          (w.startTime = "" || w.endTime = "" ||
            (goStrLe w.startTime currentTime && goStrLe currentTime w.endTime)))) ∧
    findActiveWindows timestamp windows =
      ((parseWindows windows).filter
          (windowApplies (dayNameOf timestamp) (currentTimeOf timestamp)),
        (((parseWindows windows).filter
          (windowApplies (dayNameOf timestamp) (currentTimeOf timestamp))).map
            TimeWindow.multiplier).prod) := by
  constructor
  · intro dayName currentTime w
    simp only [windowApplies]
    by_cases hd : (w.days.isEmpty || w.days.any fun d => goToLower d = dayName) = true
    · rw [hd]
      by_cases he : (w.startTime = "" || w.endTime = "") = true
      · simp only [Bool.not_true, if_false]
        rcases Bool.or_eq_true_iff.mp he with h | h
        · simp [decide_eq_true h]
        · simp [decide_eq_true h]
      · have h1 : ¬ w.startTime = "" := by
          intro h; apply he; simp [h]
        have h2 : ¬ w.endTime = "" := by
          intro h; apply he; simp [h]
        simp [h1, h2]
    · have hd' := Bool.not_eq_true _ |>.mp hd
      simp [hd']
  · have h := findActiveWindows_go (dayNameOf timestamp) (currentTimeOf timestamp)
      windows ([], 1)
    simp only [findActiveWindows]
    rw [h]
    simp

/-- C10: a `timestamp` input entry that is not a string, or is a string that
does not parse as RFC3339, causes no error: `TimeBasedStrategy.Calculate`
silently uses `req.RequestedAt` as the effective timestamp, and still
succeeds whenever `base_price` is supplied and non-negative. -/
theorem timeBased_timestamp_silent_fallback
    (parse : String → Option GoTime) (req : PricingRequest)
    (config : List (String × GoVal))
    (h : (∃ v, mapGet req.inputs "timestamp" = some v ∧
            GetString req.inputs "timestamp" = none) ∨
         (∃ str, GetString req.inputs "timestamp" = some str ∧
            parse str = none)) :
    tbEffectiveTimestamp parse req = req.requestedAt ∧
    (∀ b, GetFloat64 req.inputs "base_price" = some b → 0 ≤ b →
      ∃ r, timeBasedCalculate parse req config = Except.ok r) := by
  have heff : tbEffectiveTimestamp parse req = req.requestedAt := by
    rcases h with ⟨v, _, hgs⟩ | ⟨str, hgs, hp⟩
    · simp only [tbEffectiveTimestamp, hgs]
    · simp only [tbEffectiveTimestamp, hgs, hp]
  refine ⟨heff, ?_⟩
  intro b hb hb0
  simp only [timeBasedCalculate, hb]
  rw [if_neg (not_lt.mpr hb0)]
  exact ⟨_, rfl⟩

/-- Witness for C10: a non-RFC3339 `timestamp` string alongside a valid
`base_price` yields the request's own timestamp and a successful
calculation. -/
theorem timeBased_timestamp_silent_fallback_witness :
    tbEffectiveTimestamp (fun _ => none)
        { strategy := "time_based", ruleID := none,
          inputs := [("base_price", GoVal.f 100),
            ("timestamp", GoVal.s "not-a-timestamp")],
          requestedAt := ⟨1, 18, 0, false⟩ } =
      ({ strategy := "time_based", ruleID := none,
          inputs := [("base_price", GoVal.f 100),
            ("timestamp", GoVal.s "not-a-timestamp")],
          requestedAt := ⟨1, 18, 0, false⟩ } : PricingRequest).requestedAt ∧
    ∃ r, timeBasedCalculate (fun _ => none)
        { strategy := "time_based", ruleID := none,
          inputs := [("base_price", GoVal.f 100),
            ("timestamp", GoVal.s "not-a-timestamp")],
          requestedAt := ⟨1, 18, 0, false⟩ } [] = Except.ok r := by
  have h := timeBased_timestamp_silent_fallback (fun _ => none)
    { strategy := "time_based", ruleID := none,
      inputs := [("base_price", GoVal.f 100),
        ("timestamp", GoVal.s "not-a-timestamp")],
      requestedAt := ⟨1, 18, 0, false⟩ } []
    (Or.inr ⟨"not-a-timestamp", rfl, rfl⟩)
  exact ⟨h.1, h.2 100 rfl (by norm_num)⟩

/-- Looking a key up after removing a different key is unchanged. -/
theorem mapGet_mapRemove_ne (rm : List (String × GoVal)) (key k : String)
    (h : k ≠ key) : mapGet (mapRemove rm key) k = mapGet rm k := by
  induction rm with
  | nil => rfl
  | cons kv rest ih =>
    by_cases hk : kv.1 = key
    · have : mapRemove (kv :: rest) key = mapRemove rest key := by
        simp [mapRemove, hk]
      rw [this, ih]
      have : ¬ kv.1 = k := by rw [hk]; exact fun hh => h hh.symm
      cases kv with
      | mk k1 v1 => simp only [mapGet]; rw [if_neg this]
    · have : mapRemove (kv :: rest) key = kv :: mapRemove rest key := by
        simp [mapRemove, hk]
      rw [this]
      cases kv with
      | mk k1 v1 =>
        simp only [mapGet]
        by_cases he : k1 = k
        · rw [if_pos he, if_pos he]
        · rw [if_neg he, if_neg he, ih]

/-- Looking up the removed key yields nothing. -/
theorem mapGet_mapRemove_self (rm : List (String × GoVal)) (key : String) :
    mapGet (mapRemove rm key) key = none := by
  induction rm with
  | nil => rfl
  | cons kv rest ih =>
    by_cases hk : kv.1 = key
    · have : mapRemove (kv :: rest) key = mapRemove rest key := by
        simp [mapRemove, hk]
      rw [this, ih]
    · have : mapRemove (kv :: rest) key = kv :: mapRemove rest key := by
        simp [mapRemove, hk]
      rw [this]
      cases kv with
      | mk k1 v1 => simp only [mapGet]; rw [if_neg hk, ih]

/-- Erasing the `priority` field only zeroes the parsed rule's priority. -/
theorem parseRBRule_mapRemove_priority (rm : List (String × GoVal)) :
    parseRBRule (mapRemove rm "priority") =
      { parseRBRule rm with priority := 0 } := by
  simp only [parseRBRule, GetString, GetFloat64]
  rw [mapGet_mapRemove_ne rm "priority" "condition" (by decide),
    mapGet_mapRemove_ne rm "priority" "action" (by decide),
    mapGet_mapRemove_ne rm "priority" "value" (by decide),
    mapGet_mapRemove_self rm "priority"]

/-- Fact about `applyAction` only reads the action kind and the value. -/
theorem applyAction_ext (price : ℚ) (r r' : RBRule)
    (ha : r.action = r'.action) (hv : r.value = r'.value) :
    applyAction price r = applyAction price r' := by
  simp only [applyAction, ha, hv]

/-- One loop step is unaffected by erasing the `priority` field. -/
theorem rbStep_erasePriority (context : List (String × GoVal)) (price : ℚ)
    (rv : GoVal) :
    rbStep context price (erasePriority rv) = rbStep context price rv := by
  cases rv with
  | m rm =>
    simp only [erasePriority, rbStep, parseRBRule_mapRemove_priority rm]
    by_cases hc : evaluateCondition (parseRBRule rm).condition context
    · rw [if_pos hc, if_pos hc]
      exact applyAction_ext price _ _ rfl rfl
    · rw [if_neg hc, if_neg hc]
  | f q => rfl
  | i n => rfl
  | s v => rfl
  | b v => rfl
  | arr l => rfl
  | null => rfl

/-- The whole rule loop is unaffected by erasing `priority` fields. -/
theorem runRules_erasePriority (context : List (String × GoVal)) (price : ℚ)
    (rules : List GoVal) :
    runRules context price (rules.map erasePriority) =
      runRules context price rules := by
  induction rules generalizing price with
  | nil => rfl
  | cons rv rest ih =>
    simp only [List.map_cons, runRules, List.foldl_cons] at *
    rw [rbStep_erasePriority, ih]

/-- Fact about `mapGet` on a config whose `rules` array had its priorities erased. -/
theorem mapGet_erasePrioritiesInConfig (config : List (String × GoVal))
    (key : String) :
    mapGet (erasePrioritiesInConfig config) key =
      if key = "rules" then (mapGet config key).map eraseRulesVal
      else mapGet config key := by
  induction config with
  | nil =>
    by_cases hk : key = "rules" <;> simp [erasePrioritiesInConfig, mapGet, hk]
  | cons kv rest ih =>
    cases kv with
    | mk k1 v1 =>
      by_cases h1 : k1 = "rules"
      · have hc : erasePrioritiesInConfig ((k1, v1) :: rest) =
            (k1, eraseRulesVal v1) :: erasePrioritiesInConfig rest := by
          simp [erasePrioritiesInConfig, h1]
        rw [hc]
        simp only [mapGet]
        by_cases h2 : k1 = key
        · have hkey : key = "rules" := h2 ▸ h1
          rw [if_pos hkey, if_pos h2, if_pos h2]
          simp
        · rw [if_neg h2, if_neg h2]
          rw [ih]
      · have hc : erasePrioritiesInConfig ((k1, v1) :: rest) =
            (k1, v1) :: erasePrioritiesInConfig rest := by
          simp [erasePrioritiesInConfig, h1]
        rw [hc]
        simp only [mapGet]
        by_cases h2 : k1 = key
        · have hkey : ¬ key = "rules" := by
            intro hh
            exact h1 (h2.trans hh)
          rw [if_neg hkey, if_pos h2, if_pos h2]
        · rw [if_neg h2, if_neg h2]
          rw [ih]

/-- The timestamp defaulting of the engine leaves the inputs untouched. -/
theorem effectiveRequest_inputs (now : GoTime) (req : PricingRequest) :
    (effectiveRequest now req).inputs = req.inputs := by
  unfold effectiveRequest
  split <;> rfl

/-- The timestamp defaulting of the engine leaves the strategy untouched. -/
theorem effectiveRequest_strategy (now : GoTime) (req : PricingRequest) :
    (effectiveRequest now req).strategy = req.strategy := by
  unfold effectiveRequest
  split <;> rfl

/-- Characterization of a successful engine run: the strategy name is valid,
config validation passed, the strategy produced a response whose rounded
price is non-negative, and the engine response is that response with
overwritten metadata and the rounded price. -/
theorem engineCalculate_ok_iff (parse : String → Option GoTime) (now : GoTime)
    (req : PricingRequest) (config : List (String × GoVal))
    (resp : PricingResponse) :
    engineCalculate parse now req config = Except.ok resp ↔
      ValidateStrategy req.strategy = true ∧
      strategyValidate req.strategy config = Except.ok () ∧
      ∃ r, strategyCalculate parse req.strategy (effectiveRequest now req)
          config = Except.ok r ∧
        ¬ RoundToTwoDecimals r.finalPrice < 0 ∧
        resp = { r with
                  strategy := req.strategy
                  appliedRuleID := req.ruleID
                  finalPrice := RoundToTwoDecimals r.finalPrice } := by
  constructor
  · intro h
    simp only [engineCalculate] at h
    split at h
    · rename_i hv
      split at h
      · exact Except.noConfusion h
      · rename_i u heq
        split at h
        · exact Except.noConfusion h
        · rename_i r heq2
          split at h
          · exact Except.noConfusion h
          · rename_i hneg
            injection h with h'
            refine ⟨hv, ?_, r, heq2, hneg, h'.symm⟩
            cases u
            exact heq
    · exact Except.noConfusion h
  · rintro ⟨hv, hval, r, hcalc, hneg, rfl⟩
    simp only [engineCalculate]
    rw [if_pos hv]
    simp only [hval, hcalc]
    rw [if_neg hneg]

/-- C1: whenever `Engine.Calculate` returns a response, its `FinalPrice` is
`RoundToTwoDecimals` of the price computed by the selected strategy and is
non-negative; when the rounded strategy price is negative, the engine returns
the `NegativePrice` error instead of a response. -/
theorem engine_finalPrice_rounded_nonneg (parse : String → Option GoTime)
    (now : GoTime) (req : PricingRequest) (config : List (String × GoVal)) :
    (∀ resp, engineCalculate parse now req config = Except.ok resp →
      ∃ r, strategyCalculate parse req.strategy (effectiveRequest now req)
          config = Except.ok r ∧
        resp.finalPrice = RoundToTwoDecimals r.finalPrice ∧
        0 ≤ resp.finalPrice) ∧
    (∀ r, ValidateStrategy req.strategy = true →
      strategyValidate req.strategy config = Except.ok () →
      strategyCalculate parse req.strategy (effectiveRequest now req) config =
        Except.ok r →
      RoundToTwoDecimals r.finalPrice < 0 →
      engineCalculate parse now req config =
        Except.error GoErr.negativePrice) := by
  constructor
  · intro resp h
    obtain ⟨hv, hval, r, hcalc, hneg, hresp⟩ :=
      (engineCalculate_ok_iff parse now req config resp).mp h
    refine ⟨r, hcalc, ?_, ?_⟩
    · rw [hresp]
    · rw [hresp]
      exact not_lt.mp hneg
  · intro r hv hval hcalc hneg
    simp only [engineCalculate]
    rw [if_pos hv]
    simp only [hval, hcalc]
    rw [if_pos hneg]

/-- The cost-plus strategy on `exReqOk`: 100 with 25% markup is 125. -/
theorem costPlus_exReqOk :
    costPlusCalculate exReqOk [] =
      Except.ok { finalPrice := 125, originalPrice := 100, currency := "USD",
                  strategy := "", appliedRuleID := none } := by
  simp [costPlusCalculate, GetFloat64, GetString, mapGet, costPlusMarkupType,
    costPlusMarkupValue, costPlusTaxRate, getCurrency, exReqOk, ApplyBounds]
  norm_num

/-- The cost-plus strategy on `exReqNeg`: 100 with fixed markup -200 is
-100. -/
theorem costPlus_exReqNeg :
    costPlusCalculate exReqNeg [] =
      Except.ok { finalPrice := -100, originalPrice := 100, currency := "USD",
                  strategy := "", appliedRuleID := none } := by
  simp [costPlusCalculate, GetFloat64, GetString, mapGet, costPlusMarkupType,
    costPlusMarkupValue, costPlusTaxRate, getCurrency, exReqNeg, ApplyBounds]
  norm_num

/-- The engine on `exReqOk` succeeds with final price 125. -/
theorem engine_exReqOk :
    engineCalculate (fun _ => none) ⟨0, 0, 0, false⟩ exReqOk [] =
      Except.ok { finalPrice := 125, originalPrice := 100, currency := "USD",
                  strategy := "cost_plus", appliedRuleID := none } := by
  rw [engineCalculate_ok_iff]
  refine ⟨rfl, rfl,
    { finalPrice := 125, originalPrice := 100, currency := "USD",
      strategy := "", appliedRuleID := none }, ?_, ?_, ?_⟩
  · exact costPlus_exReqOk
  · have h125 : RoundToTwoDecimals 125 = 125 := by
      norm_num [RoundToTwoDecimals, goInt]
    rw [h125]
    norm_num
  · have h125 : RoundToTwoDecimals 125 = 125 := by
      norm_num [RoundToTwoDecimals, goInt]
    rw [h125]
    rfl

/-- Witness for C1: a successful run (final price 125 = round2(125) ≥ 0) and
a run whose strategy price rounds negative, rejected with `NegativePrice`. -/
theorem engine_finalPrice_rounded_nonneg_witness :
    (∃ r, strategyCalculate (fun _ => none) exReqOk.strategy
        (effectiveRequest ⟨0, 0, 0, false⟩ exReqOk) [] = Except.ok r ∧
      (125 : ℚ) = RoundToTwoDecimals r.finalPrice ∧ (0 : ℚ) ≤ 125) ∧
    engineCalculate (fun _ => none) ⟨0, 0, 0, false⟩ exReqNeg [] =
      Except.error GoErr.negativePrice := by
  constructor
  · exact (engine_finalPrice_rounded_nonneg (fun _ => none) ⟨0, 0, 0, false⟩
      exReqOk []).1
      { finalPrice := 125, originalPrice := 100, currency := "USD",
        strategy := "cost_plus", appliedRuleID := none }
      engine_exReqOk
  · exact (engine_finalPrice_rounded_nonneg (fun _ => none) ⟨0, 0, 0, false⟩
      exReqNeg []).2
      { finalPrice := -100, originalPrice := 100, currency := "USD",
        strategy := "", appliedRuleID := none }
      rfl rfl costPlus_exReqNeg
      (by
        have hc : (⌈(-100 : ℚ) * 100 + 1/2⌉ : ℤ) = -9999 := by
          rw [Int.ceil_eq_iff]
          constructor <;> norm_num
        simp only [RoundToTwoDecimals, goInt]
        rw [if_neg (by norm_num), hc]
        norm_num)

/-- Fact about `costPlusMarkupType` only reads the request inputs. -/
theorem costPlusMarkupType_inputs_eq (req req' : PricingRequest)
    (config : List (String × GoVal)) (h : req.inputs = req'.inputs) :
    costPlusMarkupType req config = costPlusMarkupType req' config := by
  simp only [costPlusMarkupType, h]

/-- Fact about `costPlusMarkupValue` only reads the request inputs. -/
theorem costPlusMarkupValue_inputs_eq (req req' : PricingRequest)
    (config : List (String × GoVal)) (h : req.inputs = req'.inputs) :
    costPlusMarkupValue req config = costPlusMarkupValue req' config := by
  simp only [costPlusMarkupValue, h]

/-- Fact about `costPlusTaxRate` only reads the request inputs. -/
theorem costPlusTaxRate_inputs_eq (req req' : PricingRequest)
    (config : List (String × GoVal)) (h : req.inputs = req'.inputs) :
    costPlusTaxRate req config = costPlusTaxRate req' config := by
  simp only [costPlusTaxRate, h]

/-- C3: on a successful cost_plus engine run with resolved markup type
"percentage", base cost `b ≥ 0` and resolved markup value `m`, the final
price is `round2(clamp(b * (1 + m/100) * (1 + tax_rate), min, max))`. -/
theorem costPlus_percentage_price (parse : String → Option GoTime)
    (now : GoTime) (req : PricingRequest) (config : List (String × GoVal))
    (resp : PricingResponse) (b m : ℚ)
    (hstrat : req.strategy = "cost_plus")
    (hbc : GetFloat64 req.inputs "base_cost" = some b)
    (hb0 : 0 ≤ b)
    (hmt : costPlusMarkupType req config = "percentage")
    (hmv : costPlusMarkupValue req config = some m)
    (hok : engineCalculate parse now req config = Except.ok resp) :
    resp.finalPrice =
      RoundToTwoDecimals
        (ApplyBounds (b * (1 + m / 100) * (1 + costPlusTaxRate req config))
          ((GetFloat64 config "min_price").getD 0)
          ((GetFloat64 config "max_price").getD 0)) := by
  obtain ⟨hv, hval, r, hcalc, hneg, hresp⟩ :=
    (engineCalculate_ok_iff parse now req config resp).mp hok
  rw [hstrat] at hcalc
  have hcalc' : costPlusCalculate (effectiveRequest now req) config =
      Except.ok r := hcalc
  have hbc' : GetFloat64 (effectiveRequest now req).inputs "base_cost" =
      some b := by
    rw [effectiveRequest_inputs]
    exact hbc
  have hmt' : costPlusMarkupType (effectiveRequest now req) config =
      "percentage" := by
    rw [costPlusMarkupType_inputs_eq _ req config (effectiveRequest_inputs now req)]
    exact hmt
  have hmv' : costPlusMarkupValue (effectiveRequest now req) config =
      some m := by
    rw [costPlusMarkupValue_inputs_eq _ req config (effectiveRequest_inputs now req)]
    exact hmv
  have htax : costPlusTaxRate (effectiveRequest now req) config =
      costPlusTaxRate req config :=
    costPlusTaxRate_inputs_eq _ req config (effectiveRequest_inputs now req)
  simp only [costPlusCalculate, hbc', hmt', hmv', htax] at hcalc'
  rw [if_neg (not_lt.mpr hb0)] at hcalc'
  simp only [if_pos, String.reduceEq, or_false, if_true, reduceIte] at hcalc'
  injection hcalc' with hr
  rw [hresp, ← hr]
  have harith :
      b + b * (m / 100) + (b + b * (m / 100)) * costPlusTaxRate req config =
        b * (1 + m / 100) * (1 + costPlusTaxRate req config) := by
    ring
  rw [harith]

/-- Witness for C3: the concrete run `exReqOk` (base 100, 25% markup, no tax,
no bounds) yields 125 = round2(clamp(100 * 1.25 * 1, unset, unset)). -/
theorem costPlus_percentage_price_witness :
    (125 : ℚ) =
      RoundToTwoDecimals
        (ApplyBounds ((100 : ℚ) * (1 + 25 / 100) *
            (1 + costPlusTaxRate exReqOk []))
          ((GetFloat64 [] "min_price").getD 0)
          ((GetFloat64 [] "max_price").getD 0)) :=
  costPlus_percentage_price (fun _ => none) ⟨0, 0, 0, false⟩ exReqOk []
    { finalPrice := 125, originalPrice := 100, currency := "USD",
      strategy := "cost_plus", appliedRuleID := none }
    100 25 rfl rfl (by norm_num) rfl rfl engine_exReqOk

/-- Erasing `priority` fields from the `rules` config leaves the whole
rule-based calculation unchanged. -/
theorem ruleBasedCalculate_erasePriorities (req : PricingRequest)
    (config : List (String × GoVal)) :
    ruleBasedCalculate req (erasePrioritiesInConfig config) =
      ruleBasedCalculate req config := by
  have hne : ∀ k : String, ¬ k = "rules" →
      mapGet (erasePrioritiesInConfig config) k = mapGet config k := by
    intro k hk
    rw [mapGet_erasePrioritiesInConfig, if_neg hk]
  have hmin : GetFloat64 (erasePrioritiesInConfig config) "min_price" =
      GetFloat64 config "min_price" := by
    simp only [GetFloat64]
    rw [hne "min_price" (by decide)]
  have hmax : GetFloat64 (erasePrioritiesInConfig config) "max_price" =
      GetFloat64 config "max_price" := by
    simp only [GetFloat64]
    rw [hne "max_price" (by decide)]
  have hcur : getCurrency req (erasePrioritiesInConfig config) =
      getCurrency req config := by
    simp only [getCurrency, GetString]
    rw [hne "currency" (by decide)]
  have hrun : ∀ p : ℚ,
      runRules req.inputs p
        (match mapGet (erasePrioritiesInConfig config) "rules" with
          | some (GoVal.arr rs) => rs
          | _ => []) =
      runRules req.inputs p
        (match mapGet config "rules" with
          | some (GoVal.arr rs) => rs
          | _ => []) := by
    intro p
    rw [mapGet_erasePrioritiesInConfig, if_pos rfl]
    cases hr : mapGet config "rules" with
    | none => rfl
    | some v =>
      cases v with
      | arr rs => exact runRules_erasePriority req.inputs p rs
      | f q => rfl
      | i n => rfl
      | s v => rfl
      | b v => rfl
      | m mm => rfl
      | null => rfl
  simp only [ruleBasedCalculate, hmin, hmax, hcur]
  cases hb : GetFloat64 req.inputs "base_price" with
  | none => rfl
  | some b =>
    simp only []
    by_cases hb0 : b < 0
    · rw [if_pos hb0, if_pos hb0]
    · rw [if_neg hb0, if_neg hb0, hrun b]

/-- C6: rule-based pricing evaluates the rules sequentially in list order
(each matched rule's action operating on the output of the previous one),
with `apply_discount` subtracting value% of the current price,
`apply_markup` adding value% of it, `set_multiplier` multiplying by the
value, `add_fixed_amount` adding the value, and `set_price` replacing it —
while the `priority` field has no effect on the order or the computed
price. -/
theorem ruleBased_sequential_priority_irrelevant :
    (∀ context price, runRules context price [] = price) ∧
    (∀ context price rv rest,
      runRules context price (rv :: rest) =
        runRules context (rbStep context price rv) rest) ∧
    (∀ (price : ℚ) (r : RBRule), r.action = "apply_discount" →
      applyAction price r = price - price * (r.value / 100)) ∧
    (∀ (price : ℚ) (r : RBRule), r.action = "apply_markup" →
      applyAction price r = price + price * (r.value / 100)) ∧
    (∀ (price : ℚ) (r : RBRule), r.action = "set_multiplier" →
      applyAction price r = price * r.value) ∧
    (∀ (price : ℚ) (r : RBRule), r.action = "add_fixed_amount" →
      applyAction price r = price + r.value) ∧
    (∀ (price : ℚ) (r : RBRule), r.action = "set_price" →
      applyAction price r = r.value) ∧
    (∀ context price rules,
      runRules context price (rules.map erasePriority) =
        runRules context price rules) ∧
    (∀ req config,
      ruleBasedCalculate req (erasePrioritiesInConfig config) =
        ruleBasedCalculate req config) := by
  refine ⟨fun context price => rfl,
    fun context price rv rest => rfl, ?_, ?_, ?_, ?_, ?_,
    runRules_erasePriority, ruleBasedCalculate_erasePriorities⟩
  all_goals
    intro price r h
    simp only [applyAction, h]
    rfl

/-- Witness for C6: the five actions at concrete prices, the empty rule list,
a priority-erased rule list, and a priority-erased config. -/
theorem ruleBased_sequential_priority_irrelevant_witness :
    runRules [] 100 [] = 100 ∧
    applyAction 200 ⟨"always", "apply_discount", 10, 5⟩ =
      200 - 200 * ((10 : ℚ) / 100) ∧
    applyAction 200 ⟨"always", "apply_markup", 10, 5⟩ =
      200 + 200 * ((10 : ℚ) / 100) ∧
    applyAction 200 ⟨"always", "set_multiplier", 3, 5⟩ = 200 * 3 ∧
    applyAction 200 ⟨"always", "add_fixed_amount", 7, 5⟩ = 200 + 7 ∧
    applyAction 200 ⟨"always", "set_price", 42, 5⟩ = 42 ∧
    runRules [] 100
      ([GoVal.m [("condition", GoVal.s "always"),
          ("action", GoVal.s "set_price"), ("value", GoVal.f 55),
          ("priority", GoVal.i 9)]].map erasePriority) =
      runRules [] 100
        [GoVal.m [("condition", GoVal.s "always"),
          ("action", GoVal.s "set_price"), ("value", GoVal.f 55),
          ("priority", GoVal.i 9)]] ∧
    ruleBasedCalculate exReqOk
        (erasePrioritiesInConfig [("rules", GoVal.arr [])]) =
      ruleBasedCalculate exReqOk [("rules", GoVal.arr [])] :=
  ⟨ruleBased_sequential_priority_irrelevant.1 [] 100,
    ruleBased_sequential_priority_irrelevant.2.2.1 200 ⟨"always", "apply_discount", 10, 5⟩ rfl,
    ruleBased_sequential_priority_irrelevant.2.2.2.1 200 ⟨"always", "apply_markup", 10, 5⟩ rfl,
    ruleBased_sequential_priority_irrelevant.2.2.2.2.1 200 ⟨"always", "set_multiplier", 3, 5⟩ rfl,
    ruleBased_sequential_priority_irrelevant.2.2.2.2.2.1 200 ⟨"always", "add_fixed_amount", 7, 5⟩ rfl,
    ruleBased_sequential_priority_irrelevant.2.2.2.2.2.2.1 200 ⟨"always", "set_price", 42, 5⟩ rfl,
    ruleBased_sequential_priority_irrelevant.2.2.2.2.2.2.2.1 [] 100 _,
    ruleBased_sequential_priority_irrelevant.2.2.2.2.2.2.2.2 exReqOk [("rules", GoVal.arr [])]⟩

end Pantera
